import Mathlib

/-!
Shallow embedding of the forecasting utility module (naive and seasonal-naive
forecasters, prediction-interval helpers, sigma estimation, conformal-interval
configuration) and proofs of the specified properties.

Floating-point values are modelled exactly: a `Val` is either `none` (NaN) or
`some q` with `q : ℚ` (a finite value).  Arrays are Lean lists.
-/

open List

/-- A floating-point cell: `none` models NaN, `some q` a finite value. -/
abbrev Val : Type := Option ℚ

/-- Result dictionary of a forecaster: a `"mean"` array and an optional
`"fitted"` array. -/
structure Forecast where
  mean : List Val
  fitted : Option (List Val)
  deriving Repr, DecidableEq

/-- `_repeat_val_seas(season_vals, h)`: `repeats = ceil(h / season_vals.size)`;
tile `season_vals` that many times and truncate to `h` entries. -/
def _repeat_val_seas (season_vals : List Val) (h : ℕ) : List Val :=
  ((List.replicate ((h + season_vals.length - 1) / season_vals.length) season_vals).flatten).take h

/-- The season template of `_seasonal_naive`: an array of `season_length` NaNs
whose first `min(season_length, n)` entries are overwritten with the last
`min(season_length, n)` observations of `y`. -/
def seasonTemplate (y : List Val) (season_length : ℕ) : List Val :=
  let n := y.length
  let season_samples := min season_length n
  y.drop (n - season_samples) ++ List.replicate (season_length - season_samples) none

/-- `_seasonal_naive(y, h, fitted, season_length)`. -/
def _seasonal_naive (y : List Val) (h : ℕ) (fitted : Bool) (season_length : ℕ) : Forecast :=
  let n := y.length
  let out := _repeat_val_seas (seasonTemplate y season_length) h
  { mean := out
    fitted :=
      if fitted then
        some (List.replicate (min season_length n) none ++ y.take (n - season_length))
      else none }

/-- `_repeat_val(val, h)`: an array of `h` copies of `val`. -/
def _repeat_val (val : Val) (h : ℕ) : List Val :=
  List.replicate h val

/-- `_naive(y, h, fitted)`: flat forecast at `y[-1]`; fitted values are a
one-step lag with NaN at position 0 (`fitted_vals[1:] = np.roll(y, 1)[1:]`).
`y[-1]` on an empty `y` is an error in the source; here it is modelled as NaN. -/
def _naive (y : List Val) (h : ℕ) (fitted : Bool) : Forecast :=
  { mean := _repeat_val (y.getLast?.getD none) h
    fitted :=
      if fitted then
        some (match y with
              | [] => []
              | _ :: _ => none :: y.dropLast)
      else none }

example : _seasonal_naive [some 1, some 2, some 3] 4 false 2 =
    { mean := [some 2, some 3, some 2, some 3], fitted := none } := by decide

example : _seasonal_naive [some 1] 3 true 2 =
    { mean := [some 1, none, some 1], fitted := some [none] } := by decide

example : _seasonal_naive [some 1, some 2, some 3] 2 true 2 =
    { mean := [some 2, some 3], fitted := some [none, none, some 1] } := by decide

example : _naive [some 1, some 2, some 3] 2 true =
    { mean := [some 3, some 3], fitted := some [none, some 1, some 2] } := by decide

/-! ### Helper lemmas about the season-value tiling -/

lemma flatten_replicate_getElem? (sv : List Val) (k i : ℕ) (hi : i < k * sv.length) :
    ((List.replicate k sv).flatten)[i]? = sv[i % sv.length]? := by
  induction k generalizing i with
  | zero => omega
  | succ k ih =>
    have hlen : 0 < sv.length := by
      rcases Nat.eq_zero_or_pos sv.length with h0 | h0
      · rw [h0, Nat.mul_zero] at hi
        omega
      · exact h0
    rw [List.replicate_succ, List.flatten_cons, List.getElem?_append]
    by_cases hcase : i < sv.length
    · rw [if_pos hcase, Nat.mod_eq_of_lt hcase]
    · push_neg at hcase
      rw [if_neg (by omega)]
      have hexp : (k + 1) * sv.length = k * sv.length + sv.length := by ring
      rw [ih (i - sv.length) (by omega)]
      rw [← Nat.mod_eq_sub_mod hcase]

lemma le_ceil_mul (h len : ℕ) (hl : 0 < len) : h ≤ ((h + len - 1) / len) * len := by
  have h1 := Nat.div_add_mod (h + len - 1) len
  have h2 := Nat.mod_lt (h + len - 1) hl
  have h3 : len * ((h + len - 1) / len) = ((h + len - 1) / len) * len := Nat.mul_comm _ _
  omega

lemma repeat_val_seas_length (sv : List Val) (h : ℕ) (hl : 0 < sv.length) :
    (_repeat_val_seas sv h).length = h := by
  unfold _repeat_val_seas
  rw [List.length_take]
  simp only [List.length_flatten, List.map_replicate, List.sum_replicate, smul_eq_mul]
  have := le_ceil_mul h sv.length hl
  omega

lemma repeat_val_seas_getElem? (sv : List Val) (h t : ℕ) (hl : 0 < sv.length) (ht : t < h) :
    (_repeat_val_seas sv h)[t]? = sv[t % sv.length]? := by
  unfold _repeat_val_seas
  rw [List.getElem?_take_of_lt ht, flatten_replicate_getElem?]
  exact lt_of_lt_of_le ht (le_ceil_mul h sv.length hl)

/-! ### Helper lemmas about the season template -/

lemma seasonTemplate_of_le {y : List Val} {m : ℕ} (hm : m ≤ y.length) :
    seasonTemplate y m = y.drop (y.length - m) := by
  unfold seasonTemplate
  simp [Nat.min_eq_left hm]

lemma seasonTemplate_of_lt {y : List Val} {m : ℕ} (hm : y.length < m) :
    seasonTemplate y m = y ++ List.replicate (m - y.length) none := by
  unfold seasonTemplate
  simp [Nat.min_eq_right (le_of_lt hm)]

lemma seasonTemplate_length (y : List Val) (m : ℕ) : (seasonTemplate y m).length = m := by
  unfold seasonTemplate
  simp only [List.length_append, List.length_drop, List.length_replicate]
  omega

/-! ### C1: alignment of the season template when history is shorter than one
season.  The source writes `season_vals[:season_samples] = y[-season_samples:]`,
which is LEFT-aligned: the observations occupy the leading positions and the
trailing `m - n` positions stay NaN. -/

/-- C1 counterexample: for `y = [1]` and `m = 2` the claim asserts the template
is right-aligned (`template[1] = y[0]` and `template[0]` NaN), but the code
produces the left-aligned `[1, NaN]`. -/
theorem c1_counterexample :
    ¬ ((seasonTemplate [some (1 : ℚ)] 2)[1]? = some (some (1 : ℚ)) ∧
       (seasonTemplate [some (1 : ℚ)] 2)[0]? = some none) := by decide

/-- C1 (amended): for `n < m` the season template is LEFT-aligned:
`template[0 : n] = y[0 : n]` and the trailing `m - n` positions are NaN. -/
theorem c1_template_left_aligned (y : List Val) (m : ℕ) (hn : y.length < m) :
    (seasonTemplate y m).take y.length = y ∧
    (seasonTemplate y m).drop y.length = List.replicate (m - y.length) none := by
  rw [seasonTemplate_of_lt hn]
  exact ⟨List.take_left y _, List.drop_left y _⟩

/-- Witness for C1 (amended) at `y = [1]`, `m = 2`. -/
theorem c1_witness :
    ([some (1 : ℚ)] : List Val).length < 2 ∧
    ((seasonTemplate [some (1 : ℚ)] 2).take 1 = [some (1 : ℚ)] ∧
     (seasonTemplate [some (1 : ℚ)] 2).drop 1 = List.replicate 1 none) :=
  ⟨by decide, c1_template_left_aligned [some (1 : ℚ)] 2 (by decide)⟩

/-- C2: for `n ≥ m ≥ 1` the seasonal naive mean has length `h` and satisfies
`mean[t] = y[n - m + (t mod m)]` for every `t < h`. -/
theorem c2_seasonal_periodicity (y : List Val) (h m : ℕ) (b : Bool)
    (hm : 1 ≤ m) (hnm : m ≤ y.length) :
    ((_seasonal_naive y h b m).mean).length = h ∧
    ∀ t, t < h → ((_seasonal_naive y h b m).mean)[t]? = y[y.length - m + t % m]? := by
  have hlen : 0 < (seasonTemplate y m).length := by
    rw [seasonTemplate_length]; omega
  constructor
  · show (_repeat_val_seas (seasonTemplate y m) h).length = h
    exact repeat_val_seas_length _ h hlen
  · intro t ht
    show (_repeat_val_seas (seasonTemplate y m) h)[t]? = _
    rw [repeat_val_seas_getElem? _ h t hlen ht, seasonTemplate_length,
      seasonTemplate_of_le hnm, List.getElem?_drop]

/-- Witness for C2 at `y = [10, 20, 30]`, `m = 2`, `h = 5`, `t = 4`. -/
theorem c2_witness :
    ((_seasonal_naive [some (10 : ℚ), some 20, some 30] 5 true 2).mean).length = 5 ∧
    ((_seasonal_naive [some (10 : ℚ), some 20, some 30] 5 true 2).mean)[4]? =
      ([some (10 : ℚ), some 20, some 30] : List Val)[3 - 2 + 4 % 2]? :=
  ⟨(c2_seasonal_periodicity [some (10 : ℚ), some 20, some 30] 5 2 true
      (by decide) (by decide)).1,
   (c2_seasonal_periodicity [some (10 : ℚ), some 20, some 30] 5 2 true
      (by decide) (by decide)).2 4 (by decide)⟩

/-- C3: for `n < m`, template positions `n..m-1` are NaN, and every mean
position `t` with `(t mod m) ≥ n` is NaN. -/
theorem c3_short_history_nan (y : List Val) (h m : ℕ) (b : Bool)
    (hn : y.length < m) :
    (∀ i, y.length ≤ i → i < m → (seasonTemplate y m)[i]? = some none) ∧
    (∀ t, t < h → y.length ≤ t % m →
      ((_seasonal_naive y h b m).mean)[t]? = some none) := by
  have htemp : ∀ i, y.length ≤ i → i < m → (seasonTemplate y m)[i]? = some none := by
    intro i hi him
    rw [seasonTemplate_of_lt hn, List.getElem?_append, if_neg (by omega)]
    exact List.getElem?_replicate_of_lt (by omega)
  refine ⟨htemp, fun t ht htm => ?_⟩
  show (_repeat_val_seas (seasonTemplate y m) h)[t]? = _
  have hlen : 0 < (seasonTemplate y m).length := by
    rw [seasonTemplate_length]; omega
  rw [repeat_val_seas_getElem? _ h t hlen ht, seasonTemplate_length]
  exact htemp _ htm (Nat.mod_lt t (by omega))

/-- Witness for C3 at `y = [5]`, `m = 3`, `h = 7`, `t = 4` (`4 mod 3 = 1 ≥ 1`). -/
theorem c3_witness :
    (seasonTemplate [some (5 : ℚ)] 3)[2]? = some none ∧
    ((_seasonal_naive [some (5 : ℚ)] 7 false 3).mean)[4]? = some none :=
  ⟨(c3_short_history_nan [some (5 : ℚ)] 7 3 false (by decide)).1 2 (by decide) (by decide),
   (c3_short_history_nan [some (5 : ℚ)] 7 3 false (by decide)).2 4 (by decide) (by decide)⟩

/-- C4: the seasonal naive fitted array has length `n`, is NaN on its first
`min(m, n)` positions, equals `y[i - m]` at positions `m ≤ i < n`, and is
entirely NaN when `n ≤ m`. -/
theorem c4_seasonal_fitted (y : List Val) (h m : ℕ) :
    ((_seasonal_naive y h true m).fitted).isSome = true ∧
    (((_seasonal_naive y h true m).fitted).getD []).length = y.length ∧
    (∀ i, i < min m y.length →
      (((_seasonal_naive y h true m).fitted).getD [])[i]? = some none) ∧
    (∀ i, m ≤ i → i < y.length →
      (((_seasonal_naive y h true m).fitted).getD [])[i]? = y[i - m]?) ∧
    (y.length ≤ m →
      ((_seasonal_naive y h true m).fitted).getD [] = List.replicate y.length none) := by
  have hf : ((_seasonal_naive y h true m).fitted).getD [] =
      List.replicate (min m y.length) none ++ y.take (y.length - m) := rfl
  refine ⟨rfl, ?_, ?_, ?_, ?_⟩
  · rw [hf]
    simp only [List.length_append, List.length_replicate, List.length_take]
    omega
  · intro i hi
    rw [hf, List.getElem?_append, if_pos (by simpa using hi)]
    exact List.getElem?_replicate_of_lt hi
  · intro i him hin
    have hmn : min m y.length = m := by omega
    rw [hf, hmn, List.getElem?_append, List.length_replicate,
      if_neg (by omega), List.getElem?_take_of_lt (by omega)]
  · intro hnm
    have h0 : y.length - m = 0 := by omega
    rw [hf, h0, Nat.min_eq_right hnm]
    simp

/-- Witness for C4 at `y = [1, 2, 3]`, `m = 2`, `h = 5`: `fitted = [NaN, NaN, 1]`. -/
theorem c4_witness :
    ((((_seasonal_naive [some (1 : ℚ), some 2, some 3] 5 true 2).fitted).getD [])[0]? =
      some none) ∧
    ((((_seasonal_naive [some (1 : ℚ), some 2, some 3] 5 true 2).fitted).getD [])[2]? =
      ([some (1 : ℚ), some 2, some 3] : List Val)[0]?) :=
  ⟨(c4_seasonal_fitted [some (1 : ℚ), some 2, some 3] 5 2).2.2.1 0 (by decide),
   (c4_seasonal_fitted [some (1 : ℚ), some 2, some 3] 5 2).2.2.2.1 2 (by decide) (by decide)⟩

/-- C5: for `n ≥ 1` the naive mean has length `h` and every entry equals
`y[n - 1]`; for `h = 0` it is the empty array (its length is `0`). -/
theorem c5_naive_mean (y : List Val) (h : ℕ) (b : Bool) (hn : 1 ≤ y.length) :
    ((_naive y h b).mean).length = h ∧
    ∀ t, t < h → ((_naive y h b).mean)[t]? = y[y.length - 1]? := by
  have hmean : (_naive y h b).mean = List.replicate h (y.getLast?.getD none) := rfl
  constructor
  · rw [hmean, List.length_replicate]
  · intro t ht
    have h1 : y.length - 1 < y.length := by omega
    rw [hmean, List.getElem?_replicate_of_lt ht, List.getElem?_eq_getElem h1,
      List.getLast?_eq_getElem? y, List.getElem?_eq_getElem h1]
    rfl

/-- Witness for C5 at `y = [7, 9]`, `h = 3`, `t = 2`. -/
theorem c5_witness :
    ((_naive [some (7 : ℚ), some 9] 3 false).mean).length = 3 ∧
    ((_naive [some (7 : ℚ), some 9] 3 false).mean)[2]? =
      ([some (7 : ℚ), some 9] : List Val)[1]? :=
  ⟨(c5_naive_mean [some (7 : ℚ), some 9] 3 false (by decide)).1,
   (c5_naive_mean [some (7 : ℚ), some 9] 3 false (by decide)).2 2 (by decide)⟩

/-- C6: for `n ≥ 2` the naive fitted array has length `n`, starts with NaN, and
satisfies `fitted[t] = y[t - 1]` for `1 ≤ t < n`. -/
theorem c6_naive_fitted (y : List Val) (h : ℕ) (hn : 2 ≤ y.length) :
    (((_naive y h true).fitted).getD []).length = y.length ∧
    (((_naive y h true).fitted).getD [])[0]? = some none ∧
    ∀ t, 1 ≤ t → t < y.length → (((_naive y h true).fitted).getD [])[t]? = y[t - 1]? := by
  obtain ⟨a, l, rfl⟩ : ∃ a l, y = a :: l := by
    cases y with
    | nil => simp at hn
    | cons a l => exact ⟨a, l, rfl⟩
  have hf : ((_naive (a :: l) h true).fitted).getD [] = none :: (a :: l).dropLast := rfl
  rw [hf]
  refine ⟨by simp, by simp, ?_⟩
  intro t ht htn
  obtain ⟨t', rfl⟩ : ∃ t', t = t' + 1 := ⟨t - 1, by omega⟩
  rw [List.getElem?_cons_succ, List.dropLast_eq_take,
    List.getElem?_take_of_lt (by simp only [List.length_cons] at htn ⊢; omega)]
  simp

/-- Witness for C6 at `y = [4, 5, 6]`, `t = 2`. -/
theorem c6_witness :
    (((_naive [some (4 : ℚ), some 5, some 6] 1 true).fitted).getD [])[0]? = some none ∧
    (((_naive [some (4 : ℚ), some 5, some 6] 1 true).fitted).getD [])[2]? =
      ([some (4 : ℚ), some 5, some 6] : List Val)[1]? :=
  ⟨(c6_naive_fitted [some (4 : ℚ), some 5, some 6] 1 (by decide)).2.1,
   (c6_naive_fitted [some (4 : ℚ), some 5, some 6] 1 (by decide)).2.2 2 (by decide) (by decide)⟩

/-! ### C10: the seasonal naive forecaster with `m = 1` degenerates to naive -/

lemma repeat_val_seas_singleton (v : Val) (h : ℕ) :
    _repeat_val_seas [v] h = List.replicate h v := by
  unfold _repeat_val_seas
  simp

lemma drop_length_sub_one (y : List Val) (hn : 1 ≤ y.length) :
    y.drop (y.length - 1) = [y.getLast?.getD none] := by
  induction y with
  | nil => simp at hn
  | cons a l ih =>
    cases l with
    | nil => rfl
    | cons b t =>
      have h1 : 1 ≤ (b :: t).length := by simp
      have h2 := ih h1
      have h3 : (a :: b :: t).length - 1 = ((b :: t).length - 1) + 1 := by simp
      rw [h3, List.drop_succ_cons, List.getLast?_cons_cons]
      exact h2

/-- C10: for `n ≥ 1`, any horizon and either fitted flag, the seasonal naive
forecaster with season length 1 produces exactly the naive forecaster's output. -/
theorem c10_seasonal_one_eq_naive (y : List Val) (h : ℕ) (b : Bool) (hn : 1 ≤ y.length) :
    _seasonal_naive y h b 1 = _naive y h b := by
  have htemp : seasonTemplate y 1 = [y.getLast?.getD none] := by
    rw [seasonTemplate_of_le hn, drop_length_sub_one y hn]
  have h1 : (_seasonal_naive y h b 1).mean = (_naive y h b).mean := by
    show _repeat_val_seas (seasonTemplate y 1) h = _repeat_val (y.getLast?.getD none) h
    rw [htemp, repeat_val_seas_singleton]
    rfl
  have h2 : (_seasonal_naive y h b 1).fitted = (_naive y h b).fitted := by
    cases b with
    | false => rfl
    | true =>
      cases y with
      | nil => simp at hn
      | cons a l =>
        show some (List.replicate (min 1 (a :: l).length) none ++
            (a :: l).take ((a :: l).length - 1)) = some (none :: (a :: l).dropLast)
        have hmin : min 1 (a :: l).length = 1 := by simp
        rw [hmin, List.dropLast_eq_take]
        simp
  calc _seasonal_naive y h b 1
      = ⟨(_seasonal_naive y h b 1).mean, (_seasonal_naive y h b 1).fitted⟩ := rfl
    _ = ⟨(_naive y h b).mean, (_naive y h b).fitted⟩ := by rw [h1, h2]
    _ = _naive y h b := rfl

/-- Witness for C10 at `y = [3, 8]`, `h = 3`, fitted requested. -/
theorem c10_witness :
    1 ≤ ([some (3 : ℚ), some 8] : List Val).length ∧
    _seasonal_naive [some (3 : ℚ), some 8] 3 true 1 = _naive [some (3 : ℚ), some 8] 3 true :=
  ⟨by decide, c10_seasonal_one_eq_naive [some (3 : ℚ), some 8] 3 true (by decide)⟩

/-! ### C8: `_calculate_sigma` -/

/-- `np.nansum`: sum of the entries, with NaN entries skipped. -/
def nansum (xs : List Val) : ℚ :=
  (xs.map (fun v => v.getD 0)).sum

/-- `_calculate_sigma(residuals, n)`: `sqrt(nansum(residuals ** 2) / n)` when
`n > 0`, else `0`.  Squaring is elementwise (NaN squares to NaN). -/
noncomputable def _calculate_sigma (residuals : List Val) (n : ℕ) : ℝ :=
  if 0 < n then
    Real.sqrt ((nansum (residuals.map (Option.map (fun r => r ^ 2))) : ℝ) / n)
  else 0

/-- C8: with count `n = 0` the sigma estimator returns exactly `0` for any
residuals (NaN entries included); with `n > 0` it returns
`sqrt(nansum(residuals²) / n)`. -/
theorem c8_sigma_zero_guard (residuals : List Val) :
    _calculate_sigma residuals 0 = 0 ∧
    ∀ n : ℕ, 0 < n → _calculate_sigma residuals n =
      Real.sqrt ((nansum (residuals.map (Option.map (fun r => r ^ 2))) : ℝ) / n) := by
  refine ⟨by simp [_calculate_sigma], fun n hn => ?_⟩
  simp [_calculate_sigma, hn]

/-- Witness for C8 at `residuals = [NaN, 3]` with `n = 0` and `n = 2`. -/
theorem c8_witness :
    _calculate_sigma [none, some (3 : ℚ)] 0 = 0 ∧
    _calculate_sigma [none, some (3 : ℚ)] 2 = Real.sqrt ((9 : ℝ) / 2) := by
  refine ⟨(c8_sigma_zero_guard [none, some (3 : ℚ)]).1, ?_⟩
  rw [(c8_sigma_zero_guard [none, some (3 : ℚ)]).2 2 (by norm_num)]
  norm_num [nansum]

/-! ### C9: the `ConformalIntervals` configuration -/

/-- `allowed_methods` from the source. -/
def allowed_methods : List String := ["conformal_distribution"]

/-- The `ConformalIntervals` record: `n_windows`, `h`, `method`. -/
structure ConformalIntervals where
  n_windows : ℤ
  h : ℤ
  method : String
  deriving Repr, DecidableEq

/-- `ConformalIntervals.__init__`: raises (modelled by `Except.error`) when
`n_windows < 2` or `method` is not recognized; otherwise stores the three
arguments unchanged. -/
def ConformalIntervals.make (n_windows : ℤ) (h : ℤ) (method : String) :
    Except String ConformalIntervals :=
  if n_windows < 2 then
    .error "You need at least two windows to compute conformal intervals"
  else if method ∈ allowed_methods then
    .ok { n_windows := n_windows, h := h, method := method }
  else
    .error "method must be one of the allowed methods"

/-- C9: construction fails iff `n_windows < 2` or the method is unrecognized;
on success the object stores `n_windows`, `h` (the horizon, unchanged) and
`method` exactly as given. -/
theorem c9_config_validation (n_windows h : ℤ) (method : String) :
    ((ConformalIntervals.make n_windows h method).isOk = true ↔
      ¬(n_windows < 2 ∨ method ∉ allowed_methods)) ∧
    ∀ c, ConformalIntervals.make n_windows h method = .ok c →
      c.n_windows = n_windows ∧ c.h = h ∧ c.method = method := by
  unfold ConformalIntervals.make
  by_cases h1 : n_windows < 2
  · simp [h1, Except.isOk, Except.toBool]
  · by_cases h2 : method ∈ allowed_methods
    · simp only [if_neg h1, if_pos h2]
      refine ⟨by simp [h1, h2, Except.isOk, Except.toBool], fun c hc => ?_⟩
      cases hc
      exact ⟨rfl, rfl, rfl⟩
    · simp [h1, h2, Except.isOk, Except.toBool]

/-- Witness for C9: `n_windows = 2, h = 5, method = "conformal_distribution"`
succeeds and stores the horizon unchanged; the `isOk` criterion is instantiated
at the same input. -/
theorem c9_witness :
    ((ConformalIntervals.make 2 5 "conformal_distribution").isOk = true ↔
      ¬((2 : ℤ) < 2 ∨ "conformal_distribution" ∉ allowed_methods)) ∧
    ((ConformalIntervals.mk 2 5 "conformal_distribution").n_windows = 2 ∧
     (ConformalIntervals.mk 2 5 "conformal_distribution").h = 5 ∧
     (ConformalIntervals.mk 2 5 "conformal_distribution").method = "conformal_distribution") :=
  ⟨(c9_config_validation 2 5 "conformal_distribution").1,
   (c9_config_validation 2 5 "conformal_distribution").2
     (ConformalIntervals.mk 2 5 "conformal_distribution") (by rfl)⟩

/-! ### C7: prediction intervals and the normal quantile -/

/-- The standard normal CDF `Φ`: the CDF of the Gaussian measure with mean 0
and variance 1. -/
noncomputable def normCDF (x : ℝ) : ℝ :=
  ProbabilityTheory.cdf (ProbabilityTheory.gaussianReal 0 1) x

/-- `scipy.stats.norm.ppf`: the generalized inverse of `Φ`. -/
noncomputable def norm_ppf (p : ℝ) : ℝ :=
  sInf {x : ℝ | p ≤ normCDF x}

/-- `_quantiles(level) = norm.ppf(0.5 + level / 200)` (per level). -/
noncomputable def _quantiles (level : ℝ) : ℝ :=
  norm_ppf (0.5 + level / 200)

/-- The `lo-{level}` row of `_calculate_intervals`: `mean - z * sigmah`. -/
noncomputable def interval_lower (mean sigmah : List ℝ) (level : ℝ) : List ℝ :=
  List.zipWith (fun mu s => mu - _quantiles level * s) mean sigmah

/-- The `hi-{level}` row of `_calculate_intervals`: `mean + z * sigmah`. -/
noncomputable def interval_upper (mean sigmah : List ℝ) (level : ℝ) : List ℝ :=
  List.zipWith (fun mu s => mu + _quantiles level * s) mean sigmah

lemma normCDF_mono : Monotone normCDF :=
  ProbabilityTheory.monotone_cdf _

lemma exists_normCDF_lt {p : ℝ} (hp : 0 < p) : ∃ x, normCDF x < p := by
  have h := ProbabilityTheory.tendsto_cdf_atBot (ProbabilityTheory.gaussianReal 0 1)
  exact (h.eventually (eventually_lt_nhds hp)).exists

lemma exists_le_normCDF {q : ℝ} (hq : q < 1) : ∃ x, q ≤ normCDF x := by
  have h := ProbabilityTheory.tendsto_cdf_atTop (ProbabilityTheory.gaussianReal 0 1)
  obtain ⟨x, hx⟩ := (h.eventually (eventually_gt_nhds hq)).exists
  exact ⟨x, hx.le⟩

lemma bddBelow_ppf_set {p : ℝ} (hp : 0 < p) : BddBelow {x : ℝ | p ≤ normCDF x} := by
  obtain ⟨x0, hx0⟩ := exists_normCDF_lt hp
  refine ⟨x0, fun x hx => ?_⟩
  by_contra hlt
  push_neg at hlt
  exact absurd (hx.trans (normCDF_mono hlt.le)) (not_le.mpr hx0)

/-- The generalized inverse of the normal CDF is monotone on `(0, 1)`. -/
lemma norm_ppf_mono {p q : ℝ} (hp : 0 < p) (hpq : p ≤ q) (hq : q < 1) :
    norm_ppf p ≤ norm_ppf q := by
  refine csInf_le_csInf (bddBelow_ppf_set hp) (exists_le_normCDF hq) ?_
  intro x hx
  exact hpq.trans hx

/-- C7: for elementwise non-negative `sigmah` and confidence levels
`0 < lv1 < lv2 < 100`, the interval produced at `lv2` is at least as wide as
the one at `lv1`, at every step `t`. -/
theorem c7_interval_width_monotone (mean sigmah : List ℝ) (lv1 lv2 : ℝ) (t : ℕ)
    (hs : ∀ s ∈ sigmah, 0 ≤ s) (h0 : 0 < lv1) (h12 : lv1 < lv2) (h100 : lv2 < 100)
    (htm : t < mean.length) (hts : t < sigmah.length) :
    ((interval_upper mean sigmah lv1)[t]?).getD 0 -
      ((interval_lower mean sigmah lv1)[t]?).getD 0 ≤
    ((interval_upper mean sigmah lv2)[t]?).getD 0 -
      ((interval_lower mean sigmah lv2)[t]?).getD 0 := by
  have hget : ∀ lv : ℝ,
      ((interval_upper mean sigmah lv)[t]?).getD 0 = mean[t] + _quantiles lv * sigmah[t] ∧
      ((interval_lower mean sigmah lv)[t]?).getD 0 = mean[t] - _quantiles lv * sigmah[t] := by
    intro lv
    unfold interval_upper interval_lower
    rw [List.getElem?_zipWith, List.getElem?_zipWith,
      List.getElem?_eq_getElem htm, List.getElem?_eq_getElem hts]
    exact ⟨rfl, rfl⟩
  rw [(hget lv1).1, (hget lv1).2, (hget lv2).1, (hget lv2).2]
  have hz : _quantiles lv1 ≤ _quantiles lv2 := by
    apply norm_ppf_mono
    · linarith
    · linarith
    · linarith
  have hsnn : 0 ≤ sigmah[t] := hs _ (sigmah.getElem_mem hts)
  nlinarith [mul_le_mul_of_nonneg_right hz hsnn]

/-- Witness for C7 at `mean = [0]`, `sigmah = [1]`, `lv1 = 80`, `lv2 = 95`,
`t = 0`. -/
theorem c7_witness :
    ((interval_upper [(0 : ℝ)] [(1 : ℝ)] 80)[0]?).getD 0 -
      ((interval_lower [(0 : ℝ)] [(1 : ℝ)] 80)[0]?).getD 0 ≤
    ((interval_upper [(0 : ℝ)] [(1 : ℝ)] 95)[0]?).getD 0 -
      ((interval_lower [(0 : ℝ)] [(1 : ℝ)] 95)[0]?).getD 0 :=
  c7_interval_width_monotone [(0 : ℝ)] [(1 : ℝ)] 80 95 0
    (by intro s hs; rw [List.mem_singleton] at hs; rw [hs]; norm_num)
    (by norm_num) (by norm_num) (by norm_num) (by norm_num) (by norm_num)
